import Mathlib

/-
Verification of the EDM/OData metadata model generators in this repository.

The repository contains several generator programs sharing one pipeline
shape: main.go (Go structs), grok4fastWorking/main.go (simplified Go
structs) and two TypeScript generators (Zod and ArkType output).

Modelling conventions:
 - Go strings are modelled as `List Char` (the alias `Str`); the sources
   only manipulate ASCII metadata identifiers, so Go's byte indexing and
   `unicode` classification coincide with this character-level model.
 - Go `map` lookups are modelled as association-list / membership lookups;
   sets accumulated through `map[string]...` insertion are modelled with
   `List.insert` / `List.dedup` (iteration order is irrelevant to every
   property proved here).
 - `strconv.Atoi` is modelled as a sign-and-digits parser over unbounded
   `Int`; bit-width overflow is irrelevant to the inputs considered here.
-/

namespace EdmGen

/-- Go strings, modelled as lists of characters. -/
abbrev Str := List Char

/-- Convert a Lean string literal to the `Str` model. -/
def str (s : String) : Str := s.toList

/-- Model of `strings.HasPrefix s p`. -/
def goHasPfx (s p : Str) : Bool := p.isPrefixOf s

/-- Model of `strings.HasSuffix s p`. -/
def goHasSfx (s p : Str) : Bool := p.isSuffixOf s

/-- Model of `strings.TrimPrefix s p`. -/
def trimPfx (s p : Str) : Str := if goHasPfx s p then s.drop p.length else s

/-- Model of `strings.TrimSuffix s p`. -/
def trimSfx (s p : Str) : Str :=
  if goHasSfx s p then s.take (s.length - p.length) else s

/-- Model of `strings.ToLower` (ASCII). -/
def toLowerStr (s : Str) : Str := s.map Char.toLower

/-- Model of `strings.Contains s "."`. -/
def containsDot (s : Str) : Bool := s.contains '.'

/-- Model of `strings.SplitN s "." 2`: split at the first dot, if any. -/
def splitFirstDot : Str → Option (Str × Str)
  | [] => none
  | c :: cs =>
    if c = '.' then some ([], cs)
    else
      match splitFirstDot cs with
      | some (a, b) => some (c :: a, b)
      | none => none

/-- Split a string at its LAST occurrence of `ch` (model of
`strings.LastIndex`): returns the parts before and after that occurrence. -/
def breakLastChar (ch : Char) : Str → Option (Str × Str)
  | [] => none
  | c :: cs =>
    match breakLastChar ch cs with
    | some (a, b) => some (c :: a, b)
    | none => if c = ch then some ([], cs) else none

/- =====================================================================
   C2 — configuration normalization (main.go `parseFlags`, lines 39-69).
   After lower-casing, an unrecognized -decimal / -ns-prefix value is
   replaced by the default ("shopspring" / "auto") and a warning is
   printed to stderr; the returned Bool records that the warning fired.
   ===================================================================== -/

/-- The values accepted by the `-decimal` flag switch in `parseFlags`. -/
def validDecimalModes : List Str := [str "shopspring", str "string"]

/-- Model of the `-decimal` normalization in `parseFlags`: lower-case the
value; keep it when recognized, otherwise warn and fall back to
"shopspring". The Bool is true when the warning path was taken. -/
def normalizeDecimalMode (s : Str) : Str × Bool :=
  let l := toLowerStr s
  if l ∈ validDecimalModes then (l, false) else (str "shopspring", true)

/-- The values accepted by the `-ns-prefix` flag switch in `parseFlags`. -/
def validNsPfxModes : List Str := [str "auto", str "always", str "none"]

/-- Model of the `-ns-prefix` normalization in `parseFlags`: lower-case the
value; keep it when recognized, otherwise warn and fall back to "auto".
The Bool is true when the warning path was taken. -/
def normalizeNsPfxMode (s : Str) : Str × Bool :=
  let l := toLowerStr s
  if l ∈ validNsPfxModes then (l, false) else (str "auto", true)

/- =====================================================================
   Primitive type mapping of main.go (`mapEdmToGo`, lines 1059-1151).
   ===================================================================== -/

/-- Model of main.go's `mapEdmToGo`: the switch over EDM primitive names.
Returns (go type, needsTime, needsDecimal). `decimalMode` is
`opts.DecimalMode`. -/
def mapEdmToGo (decimalMode : Str) (edm : Str) (nullable : Bool) :
    Str × Bool × Bool :=
  if edm = str "Edm.String" then
    (if nullable then str "*string" else str "string", false, false)
  else if edm = str "Edm.Boolean" then
    (if nullable then str "*bool" else str "bool", false, false)
  else if edm = str "Edm.Byte" then
    (if nullable then str "*uint8" else str "uint8", false, false)
  else if edm = str "Edm.SByte" then
    (if nullable then str "*int8" else str "int8", false, false)
  else if edm = str "Edm.Int16" then
    (if nullable then str "*int16" else str "int16", false, false)
  else if edm = str "Edm.Int32" then
    (if nullable then str "*int32" else str "int32", false, false)
  else if edm = str "Edm.Int64" then
    (if nullable then str "*int64" else str "int64", false, false)
  else if edm = str "Edm.Single" then
    (if nullable then str "*float32" else str "float32", false, false)
  else if edm = str "Edm.Double" then
    (if nullable then str "*float64" else str "float64", false, false)
  else if edm = str "Edm.Decimal" then
    (if decimalMode = str "string" then
      (if nullable then str "*string" else str "string", false, false)
    else
      (if nullable then str "*decimal.Decimal" else str "decimal.Decimal",
        false, true))
  else if edm = str "Edm.Date" ∨ edm = str "Edm.DateTime"
      ∨ edm = str "Edm.DateTimeOffset" then
    (str "time.Time", true, false)
  else if edm = str "Edm.TimeOfDay" ∨ edm = str "Edm.Time" then
    (if nullable then str "*string" else str "string", false, false)
  else if edm = str "Edm.Duration" then
    (if nullable then str "*string" else str "string", false, false)
  else if edm = str "Edm.Binary" then
    (str "[]byte", false, false)
  else if edm = str "Edm.Guid" then
    (if nullable then str "*string" else str "string", false, false)
  else
    (if nullable then str "*string" else str "string", false, false)

/- =====================================================================
   grok4fastWorking/main.go: `edmToGo` table, `isCollection`,
   `extractEdmTypeName`, `getGoType` (lines 126-201).
   ===================================================================== -/

/-- Model of the `edmToGo` map of grok4fastWorking/main.go (keys carry no
"Edm." prefix); `none` models a failed map lookup. -/
def edmToGo (k : Str) : Option Str :=
  if k = str "String" then some (str "string")
  else if k = str "Int16" then some (str "int16")
  else if k = str "Int32" then some (str "int32")
  else if k = str "Int64" then some (str "int64")
  else if k = str "Byte" then some (str "uint8")
  else if k = str "SByte" then some (str "int8")
  else if k = str "Boolean" then some (str "bool")
  else if k = str "Decimal" then some (str "float64")
  else if k = str "Double" then some (str "float64")
  else if k = str "Single" then some (str "float32")
  else if k = str "Guid" then some (str "string")
  else if k = str "Date" then some (str "time.Time")
  else if k = str "DateTimeOffset" then some (str "time.Time")
  else if k = str "TimeOfDay" then some (str "time.Time")
  else if k = str "Binary" then some (str "[]byte")
  else if k = str "Stream" then some (str "[]byte")
  else if k = str "Duration" then some (str "string")
  else none

/-- Model of `isCollection` (identical in grok4fastWorking/main.go and the
two TypeScript generators): `Collection(...)` detection by prefix/suffix
test, returning the inner text `t[11 : len t - 1]`. -/
def grokIsCollection (t : Str) : Bool × Str :=
  if goHasPfx t (str "Collection(") && goHasSfx t (str ")") then
    (true, (t.drop 11).take (t.length - 12))
  else (false, t)

/-- Model of `extractEdmTypeName` (identical in grok4fastWorking/main.go
and the TypeScript generators): strip one `Collection(`/`)` wrapper
textually, then keep the part after the first dot, if any. -/
def extractEdmTypeName (edmType : Str) : Str :=
  let fullType := trimSfx (trimPfx edmType (str "Collection(")) (str ")")
  match splitFirstDot fullType with
  | some (_, loc) => loc
  | none => fullType

/-- Model of grok4fastWorking/main.go's `getGoType` (lines 168-201). -/
def getGoType (edmType : Str) (isNullable : Bool) : Str :=
  let p := grokIsCollection edmType
  let isColl := p.1
  let innerName := extractEdmTypeName p.2
  let base0 :=
    match edmToGo innerName with
    | some prim => prim
    | none => if !isColl && isNullable then '*' :: innerName else innerName
  if isColl then str "[]" ++ base0
  else if isNullable then
    (if base0 = str "string" ∨ base0 = str "[]byte" ∨ base0 = str "time.Time"
      then base0
    else if goHasPfx base0 (str "*") then base0
    else '*' :: base0)
  else base0

/- =====================================================================
   Theorems for C2 and C3.
   ===================================================================== -/

/-- C2 counterexample: the configuration loader does NOT reject an
unrecognized `-decimal` / `-ns-prefix` value with a fatal error; at the
concrete invalid value "bogus" it returns normally, coercing the value to
the default ("shopspring" / "auto") with the warning flag set. -/
theorem c2_invalid_config_not_fatal :
    normalizeDecimalMode (str "bogus") = (str "shopspring", true)
    ∧ normalizeNsPfxMode (str "bogus") = (str "auto", true) := by
  decide

/-- C2 (amended): an unrecognized qualification-mode or decimal-encoding
value is detected at configuration-load time, a warning is emitted, and
the value falls back to the default ("shopspring" / "auto"); the loader
always returns a recognized value, and the warning fires exactly when the
lower-cased input is not recognized, so no coercion can happen later
mid-run. -/
theorem c2_config_coerced_with_warning_at_load (s : Str) :
    ((normalizeDecimalMode s).1 ∈ validDecimalModes
      ∧ ((normalizeDecimalMode s).2 = true ↔ toLowerStr s ∉ validDecimalModes))
    ∧ ((normalizeNsPfxMode s).1 ∈ validNsPfxModes
      ∧ ((normalizeNsPfxMode s).2 = true ↔ toLowerStr s ∉ validNsPfxModes)) := by
  refine ⟨?_, ?_⟩
  · simp only [normalizeDecimalMode]
    by_cases h : toLowerStr s ∈ validDecimalModes
    · rw [if_pos h]
      exact ⟨h, by simp [h]⟩
    · rw [if_neg h]
      exact ⟨by decide, by simp [h]⟩
  · simp only [normalizeNsPfxMode]
    by_cases h : toLowerStr s ∈ validNsPfxModes
    · rw [if_pos h]
      exact ⟨h, by simp [h]⟩
    · rw [if_neg h]
      exact ⟨by decide, by simp [h]⟩

/-- C3 counterexample: main.go's `mapEdmToGo` resolves `Edm.String` with
nullable=true to the pointer-wrapped `*string`, not to the plain text
type. -/
theorem c3_nullable_string_gets_pointer :
    (mapEdmToGo (str "shopspring") (str "Edm.String") true).1 = str "*string"
    ∧ (mapEdmToGo (str "shopspring") (str "Edm.String") true).1 ≠ str "string" := by
  decide

/-- C3 (amended): date/time and binary primitives never receive a pointer
wrapper in either generator, and in grok4fastWorking's `getGoType` the
text primitive also stays unwrapped when nullable; but in main.go's
`mapEdmToGo`, `Edm.String` with nullable=true resolves to the
pointer-wrapped `*string`. -/
theorem c3_empty_representable_kinds (b : Bool) (dm : Str) :
    getGoType (str "Edm.String") b = str "string"
    ∧ getGoType (str "Edm.Binary") b = str "[]byte"
    ∧ getGoType (str "Edm.DateTimeOffset") b = str "time.Time"
    ∧ (mapEdmToGo dm (str "Edm.Date") b).1 = str "time.Time"
    ∧ (mapEdmToGo dm (str "Edm.Binary") b).1 = str "[]byte"
    ∧ (mapEdmToGo dm (str "Edm.String") true).1 = str "*string" := by
  cases b <;> exact ⟨rfl, rfl, rfl, rfl, rfl, rfl⟩

/- =====================================================================
   Enum member/value machinery (C4, C5).
   ===================================================================== -/

/-- A `<Member Name=... Value=...>` node; an absent `Value` attribute is
the empty string, exactly as in the Go structs. -/
structure GoEnumMember where
  name : Str
  value : Str
deriving DecidableEq

/-- Digit-run parser used by `atoiZ` (accumulator form). -/
def parseDigits (acc : Nat) : Str → Option Nat
  | [] => some acc
  | c :: cs =>
    if c.isDigit then parseDigits (acc * 10 + (c.toNat - '0'.toNat)) cs
    else none

/-- Model of `strconv.Atoi`: an optional sign followed by at least one
digit; anything else is a parse error (`none`). Bit-width overflow is not
modelled (irrelevant to the enum values considered here). -/
def atoiZ : Str → Option Int
  | [] => none
  | '+' :: rest =>
    if rest = [] then none else (parseDigits 0 rest).map Int.ofNat
  | '-' :: rest =>
    if rest = [] then none else (parseDigits 0 rest).map (fun n => -(n : Int))
  | s => (parseDigits 0 s).map Int.ofNat

/-- One iteration of the member loop of grok4fastWorking/main.go's
`generateEnum` (lines 268-286): given the running counter, produce
((assigned value, warning fired), new counter). A member with an explicit
value keeps it and sets the counter to value+1; on `Atoi` failure the
current counter is substituted and a warning is logged; a member without
a value takes the counter, which then advances by one. -/
def generateEnumStep (cur : Int) (m : GoEnumMember) : (Int × Bool) × Int :=
  if m.value ≠ [] then
    match atoiZ m.value with
    | none => ((cur, true), cur)
    | some v => ((v, false), v + 1)
  else ((cur, false), cur + 1)

/-- The member loop of `generateEnum`, started at counter 0: the list of
(assigned value, warning fired) pairs, one per member in order. -/
def generateEnumValuesAux (cur : Int) : List GoEnumMember → List (Int × Bool)
  | [] => []
  | m :: ms =>
    (generateEnumStep cur m).1 :: generateEnumValuesAux (generateEnumStep cur m).2 ms

/-- Value assignment of grok4fastWorking/main.go's `generateEnum`. -/
def generateEnumValues (ms : List GoEnumMember) : List (Int × Bool) :=
  generateEnumValuesAux 0 ms

/-- One iteration of the member loop of `generateZodEnum`
(src/unnamed/part_000, lines 341-359): identical value logic; the
"warning" here is the `/* parsed error: ... */` marker embedded in the
emitted member line (and the counter is left unchanged). -/
def zodEnumStep (cur : Int) (m : GoEnumMember) : (Int × Bool) × Int :=
  if m.value ≠ [] then
    match atoiZ m.value with
    | none => ((cur, true), cur)
    | some v => ((v, false), v + 1)
  else ((cur, false), cur + 1)

/-- The member loop of `generateZodEnum`, started at counter 0. -/
def zodEnumValuesAux (cur : Int) : List GoEnumMember → List (Int × Bool)
  | [] => []
  | m :: ms =>
    (zodEnumStep cur m).1 :: zodEnumValuesAux (zodEnumStep cur m).2 ms

/-- Value assignment of `generateZodEnum` (src/unnamed/part_000). -/
def zodEnumValues (ms : List GoEnumMember) : List (Int × Bool) :=
  zodEnumValuesAux 0 ms

/-- The expression emitted for one const spec by main.go's `emitEnum`
(lines 750-767): an explicit value is pasted as a literal; the first
member without a value is emitted as `= iota`; a later member without a
value is emitted as a bare name, which (per Go's const-declaration rules)
repeats the expression of the preceding spec. -/
inductive ConstExpr where
  | iotaE : ConstExpr
  | lit : Int → ConstExpr
deriving DecidableEq

/-- The sequence of constant expressions that main.go's `emitEnum` const
block denotes, tracking the implicit repetition of the previous
expression list for bare member names. -/
def emitEnumExprsAux (prev : ConstExpr) (idx : Nat) :
    List GoEnumMember → List ConstExpr
  | [] => []
  | m :: ms =>
    let e :=
      if m.value ≠ [] then ConstExpr.lit ((atoiZ m.value).getD 0)
      else if idx = 0 then ConstExpr.iotaE
      else prev
    e :: emitEnumExprsAux e (idx + 1) ms

/-- Value of a constant expression at const-spec index `idx` (Go: `iota`
is the index of the ConstSpec within the const block). -/
def constExprValue (idx : Nat) : ConstExpr → Int
  | ConstExpr.iotaE => idx
  | ConstExpr.lit v => v

/-- The integer values the Go compiler assigns to the constants emitted by
main.go's `emitEnum` for the given member list (Go constant-declaration
semantics applied to the emitted const block). -/
def emitEnumAssignedValues (ms : List GoEnumMember) : List Int :=
  (emitEnumExprsAux ConstExpr.iotaE 0 ms).enum.map (fun p => constExprValue p.1 p.2)

/-- The `Status` enum of the claim: Open (no explicit value), Closed=5,
Cancelled (no explicit value). -/
def statusMembers : List GoEnumMember :=
  [⟨str "Open", []⟩, ⟨str "Closed", str "5"⟩, ⟨str "Cancelled", []⟩]

/-- C4: on the claim's `Status` enum, main.go's `emitEnum` const block
assigns Cancelled=5, not 6 — the bare `Cancelled` const spec repeats the
preceding explicit expression `5` instead of continuing the running
counter (so Closed and Cancelled collide, and the emitted
`_Status_valueToName` map literal with both constants as keys does not
even compile — the duplicate-key defect admitted by main.go's TODO).
grok4fastWorking's `generateEnum` implements the running counter the
claim states, yielding Open=0, Closed=5, Cancelled=6. -/
theorem c4_enum_running_counter_divergence :
    emitEnumAssignedValues statusMembers = [0, 5, 5]
    ∧ (generateEnumValues statusMembers).map (fun p => p.1) = [0, 5, 6]
    ∧ ¬ (emitEnumAssignedValues statusMembers).Nodup := by
  decide

/-- Helper: the `generateEnum` loop yields one value per member. -/
theorem genLenAux (c : Int) (ms : List GoEnumMember) :
    (generateEnumValuesAux c ms).length = ms.length := by
  induction ms generalizing c with
  | nil => rfl
  | cons m ms ih => simp [generateEnumValuesAux, ih]

/-- Helper: the `generateZodEnum` loop yields one value per member. -/
theorem zodLenAux (c : Int) (ms : List GoEnumMember) :
    (zodEnumValuesAux c ms).length = ms.length := by
  induction ms generalizing c with
  | nil => rfl
  | cons m ms ih => simp [zodEnumValuesAux, ih]

/-- C5: a member whose explicit value fails to parse is recovered locally
in both enum emitters: the current counter value is substituted for that
member, the warning diagnostic fires, and the loop goes on — every member
list produces exactly one value per member, so the run never aborts. -/
theorem c5_malformed_enum_value_recovered :
    (∀ (c : Int) (m : GoEnumMember), m.value ≠ [] → atoiZ m.value = none →
      generateEnumStep c m = ((c, true), c) ∧ zodEnumStep c m = ((c, true), c))
    ∧ (∀ ms : List GoEnumMember,
      (generateEnumValues ms).length = ms.length
      ∧ (zodEnumValues ms).length = ms.length) := by
  constructor
  · intro c m hv hp
    constructor
    · simp [generateEnumStep, hv, hp]
    · simp [zodEnumStep, hv, hp]
  · intro ms
    constructor
    · exact genLenAux 0 ms
    · exact zodLenAux 0 ms

/-- Closed witness for C5 at a concrete malformed member. -/
theorem c5_malformed_enum_value_recovered_witness :
    ((str "x1" ≠ ([] : Str)) ∧ atoiZ (str "x1") = none)
    ∧ generateEnumStep 7 ⟨str "Bad", str "x1"⟩ = ((7, true), 7) :=
  ⟨⟨by decide, by decide⟩,
    (c5_malformed_enum_value_recovered.1 7 ⟨str "Bad", str "x1"⟩
      (by decide) (by decide)).1⟩

/- =====================================================================
   C7 — textual decoding of flags enums.  main.go's `emitEnum` (lines
   784-816) emits an `UnmarshalJSON` whose string branch, for an IsFlags
   enum, splits the payload on commas, trims each part, looks every
   non-empty part up in the name→value map, and ORs the member values;
   an unrecognized name yields the "invalid ... value" error.  The
   definitions below are that emitted algorithm.
   ===================================================================== -/

/-- Model of `strings.Split s ","` (accumulator form; the accumulator
holds the current field reversed). -/
def splitCommaAux (cur : Str) : Str → List Str
  | [] => [cur.reverse]
  | c :: cs =>
    if c = ',' then cur.reverse :: splitCommaAux [] cs
    else splitCommaAux (c :: cur) cs

/-- Model of `strings.Split s ","`: `Split "" = [""]`, and each comma
starts a new field. -/
def splitComma (s : Str) : List Str := splitCommaAux [] s

/-- Model of `strings.TrimSpace` (ASCII whitespace). -/
def trimSpaceStr (s : Str) : Str :=
  ((s.dropWhile Char.isWhitespace).reverse.dropWhile Char.isWhitespace).reverse

/-- Model of the generated `_X_nameToValue` map lookup. -/
def lookupName (m : List (Str × Int)) (p : Str) : Option Int :=
  match m with
  | [] => none
  | (k, v) :: rest => if k = p then some v else lookupName rest p

/-- One iteration of the emitted flags-decoding loop: an error aborts the
remaining iterations (the generated code returns immediately); an empty
trimmed part is skipped; a recognized name ORs its value in; an
unrecognized name produces the "invalid enum member" error. -/
def flagsDecodeStep (m : List (Str × Int)) (acc : Except Str Int) (p : Str) :
    Except Str Int :=
  match acc with
  | Except.error e => Except.error e
  | Except.ok v =>
    let q := trimSpaceStr p
    if q = [] then Except.ok v
    else
      match lookupName m q with
      | none => Except.error (str "invalid enum member " ++ q)
      | some mv => Except.ok (Int.lor v mv)

/-- The emitted flags-enum textual decoder: the empty string decodes to
the zero value; otherwise the comma-separated parts are folded with
`flagsDecodeStep` starting from 0. -/
def flagsDecodeGo (m : List (Str × Int)) (s : Str) : Except Str Int :=
  if s = [] then Except.ok 0
  else (splitComma s).foldl (flagsDecodeStep m) (Except.ok 0)

/-- Helper: once the fold has hit an error it stays at that error. -/
theorem flagsFoldStaysError (m : List (Str × Int)) (ps : List Str) (e : Str) :
    ps.foldl (flagsDecodeStep m) (Except.error e) = Except.error e := by
  induction ps with
  | nil => rfl
  | cons p ps ih => simpa [flagsDecodeStep] using ih

/-- Helper: the flags-decoding fold errors exactly when some part trims to
a non-empty name that the member map does not recognize. -/
theorem flagsFoldErrorIff (m : List (Str × Int)) (ps : List Str) :
    ∀ v : Int,
      (∃ e, ps.foldl (flagsDecodeStep m) (Except.ok v) = Except.error e)
      ↔ ∃ p ∈ ps, trimSpaceStr p ≠ [] ∧ lookupName m (trimSpaceStr p) = none := by
  induction ps with
  | nil => simp
  | cons p ps ih =>
    intro v
    by_cases hq : trimSpaceStr p = []
    · simp only [List.foldl_cons, flagsDecodeStep, hq, if_true]
      rw [ih v]
      simp [hq]
    · cases hl : lookupName m (trimSpaceStr p) with
      | none =>
        constructor
        · intro _
          exact ⟨p, List.mem_cons_self p ps, hq, hl⟩
        · intro _
          refine ⟨str "invalid enum member " ++ trimSpaceStr p, ?_⟩
          simp only [List.foldl_cons, flagsDecodeStep, if_neg hq, hl]
          exact flagsFoldStaysError m ps _
      | some mv =>
        simp only [List.foldl_cons, flagsDecodeStep, if_neg hq, hl]
        rw [ih (Int.lor v mv)]
        constructor
        · intro ⟨q, hmem, h1, h2⟩
          exact ⟨q, List.mem_cons_of_mem p hmem, h1, h2⟩
        · intro ⟨q, hmem, h1, h2⟩
          rcases List.mem_cons.mp hmem with hpq | hmem'
          · subst hpq
            rw [hl] at h2
            cases h2
          · exact ⟨q, hmem', h1, h2⟩

/-- C7: for the emitted flags-enum decoder, the empty string decodes to
the zero value; "A,B" with A=1 and B=2 decodes to 3 (bitwise OR); and
decoding fails with the "invalid enum member" error exactly when some
listed (non-empty, trimmed) name is not a recognized member. -/
theorem c7_flags_enum_decoding :
    (∀ m : List (Str × Int), flagsDecodeGo m [] = Except.ok 0)
    ∧ flagsDecodeGo [(str "A", 1), (str "B", 2)] (str "A,B") = Except.ok 3
    ∧ ∀ (m : List (Str × Int)) (s : Str),
        (∃ e, flagsDecodeGo m s = Except.error e)
        ↔ (s ≠ [] ∧ ∃ p ∈ splitComma s,
            trimSpaceStr p ≠ [] ∧ lookupName m (trimSpaceStr p) = none) := by
  refine ⟨fun m => rfl, by rfl, fun m s => ?_⟩
  by_cases hs : s = []
  · subst hs
    simp [flagsDecodeGo]
  · simp only [flagsDecodeGo, if_neg hs]
    rw [flagsFoldErrorIff m (splitComma s) 0]
    simp [hs]

/- =====================================================================
   C8 — per-declaration dependency sets (src/unnamed/part_000,
   `collectTypeAndEnumDeps`, lines 413-476).
   ===================================================================== -/

/-- A Property or NavigationProperty as far as dependency collection is
concerned: its name and raw type reference string. -/
structure GoField where
  name : Str
  type : Str
deriving DecidableEq

/-- Model of the `edmToZod` map of src/unnamed/part_000 (keys carry no
"Edm." prefix); `none` models a failed map lookup. -/
def edmToZod (k : Str) : Option Str :=
  if k = str "String" then some (str "z.string()")
  else if k = str "Int16" then some (str "z.number().int()")
  else if k = str "Int32" then some (str "z.number().int()")
  else if k = str "Int64" then some (str "z.number().int()")
  else if k = str "Byte" then some (str "z.number().int().nonnegative().max(255)")
  else if k = str "SByte" then some (str "z.number().int().min(-128).max(127)")
  else if k = str "Boolean" then some (str "z.boolean()")
  else if k = str "Decimal" then some (str "z.number()")
  else if k = str "Double" then some (str "z.number()")
  else if k = str "Single" then some (str "z.number()")
  else if k = str "Guid" then some (str "z.string().uuid()")
  else if k = str "Date" then some (str "z.coerce.date()")
  else if k = str "DateTimeOffset" then some (str "z.coerce.date()")
  else if k = str "TimeOfDay" then some (str "z.string()")
  else if k = str "Binary" then some (str "z.instanceof(Uint8Array)")
  else if k = str "Stream" then some (str "z.instanceof(Uint8Array)")
  else if k = str "Duration" then some (str "z.string()")
  else none

/-- Model of the `addType` closure inside `collectTypeAndEnumDeps`: skip
empty names and self-references; skip primitives; classify enum names into
the enum-dependency set and everything else (declared or unknown) into the
type-dependency set. `acc` is (typeDeps, enumDeps), as insertion sets. -/
def addTypeDep (selfName : Str) (entitySet complexSet enumSet : List Str)
    (acc : List Str × List Str) (name : Str) : List Str × List Str :=
  if name = [] ∨ name = selfName then acc
  else if (edmToZod name).isSome then acc
  else if name ∈ enumSet then (acc.1, acc.2.insert name)
  else if name ∈ entitySet then (acc.1.insert name, acc.2)
  else if name ∈ complexSet then (acc.1.insert name, acc.2)
  else (acc.1.insert name, acc.2)

/-- The name `addType` is called with for a field: the raw type reference
with a `Collection(...)` wrapper stripped and the namespace removed. -/
def depNameOfField (f : GoField) : Str :=
  extractEdmTypeName (grokIsCollection f.type).2

/-- Model of `collectTypeAndEnumDeps`: fold `addType` over the scalar
properties and then over the navigation properties of the declaration. -/
def collectTypeAndEnumDeps (selfName : Str) (props navs : List GoField)
    (entitySet complexSet enumSet : List Str) : List Str × List Str :=
  let afterProps := props.foldl
    (fun acc p => addTypeDep selfName entitySet complexSet enumSet acc (depNameOfField p))
    ([], [])
  navs.foldl
    (fun acc n => addTypeDep selfName entitySet complexSet enumSet acc (depNameOfField n))
    afterProps

/-- Helper: one `addType` call never inserts the declaration's own name. -/
theorem addTypeDepNoSelf (selfName : Str) (es cs ens : List Str)
    (acc : List Str × List Str) (name : Str)
    (h1 : selfName ∉ acc.1) (h2 : selfName ∉ acc.2) :
    selfName ∉ (addTypeDep selfName es cs ens acc name).1
    ∧ selfName ∉ (addTypeDep selfName es cs ens acc name).2 := by
  unfold addTypeDep
  by_cases hskip : name = [] ∨ name = selfName
  · rw [if_pos hskip]
    exact ⟨h1, h2⟩
  · rw [if_neg hskip]
    have hne : ¬ selfName = name := fun h => hskip (Or.inr h.symm)
    split_ifs with hprim henum hent hcomp
    · exact ⟨h1, h2⟩
    · exact ⟨h1, by simpa [List.mem_insert_iff, hne] using h2⟩
    · exact ⟨by simpa [List.mem_insert_iff, hne] using h1, h2⟩
    · exact ⟨by simpa [List.mem_insert_iff, hne] using h1, h2⟩
    · exact ⟨by simpa [List.mem_insert_iff, hne] using h1, h2⟩

/-- Helper: folding `addType` over any field list preserves
self-name-freedom of both dependency sets. -/
theorem foldAddTypeDepNoSelf (selfName : Str) (es cs ens : List Str)
    (fs : List GoField) :
    ∀ acc : List Str × List Str, selfName ∉ acc.1 → selfName ∉ acc.2 →
      selfName ∉ (fs.foldl
        (fun acc f => addTypeDep selfName es cs ens acc (depNameOfField f)) acc).1
      ∧ selfName ∉ (fs.foldl
        (fun acc f => addTypeDep selfName es cs ens acc (depNameOfField f)) acc).2 := by
  induction fs with
  | nil => exact fun acc h1 h2 => ⟨h1, h2⟩
  | cons f fs ih =>
    intro acc h1 h2
    have hstep := addTypeDepNoSelf selfName es cs ens acc (depNameOfField f) h1 h2
    exact ih _ hstep.1 hstep.2

/-- C8: dependency sets exclude self-references — whatever the
declaration's properties and navigation references are (including ones
whose collection-stripped type resolves to the declaration itself), the
declaration's own name is in neither the type-dependency set nor the
enum-dependency set computed by `collectTypeAndEnumDeps`. -/
theorem c8_dependency_sets_exclude_self (selfName : Str)
    (props navs : List GoField) (es cs ens : List Str) :
    selfName ∉ (collectTypeAndEnumDeps selfName props navs es cs ens).1
    ∧ selfName ∉ (collectTypeAndEnumDeps selfName props navs es cs ens).2 := by
  unfold collectTypeAndEnumDeps
  have hprops := foldAddTypeDepNoSelf selfName es cs ens props ([], [])
    (by simp) (by simp)
  exact foldAddTypeDepNoSelf selfName es cs ens navs _ hprops.1 hprops.2

/- =====================================================================
   C10 — ArkType object key aliasing (src/unnamed/part_001,
   `generateArkObject`, lines 238-293).
   ===================================================================== -/

/-- The key emitted for one scalar property by `generateArkObject`: a name
ending in "Property" is replaced by the trimmed alias when the alias is
non-empty and no sibling scalar property bears it; otherwise the name is
kept. `propNames` is the set of the declaration's scalar property names. -/
def arkScalarKey (propNames : List Str) (keyName : Str) : Str :=
  if goHasSfx keyName (str "Property") then
    let a := trimSfx keyName (str "Property")
    if a ≠ [] then (if a ∈ propNames then keyName else a) else keyName
  else keyName

/-- The object keys emitted by `generateArkObject`, in order: aliased
scalar-property keys followed by the navigation-property names verbatim. -/
def generateArkObjectKeys (props navs : List GoField) : List Str :=
  props.map (fun p => arkScalarKey (props.map (fun q => q.name)) p.name)
    ++ navs.map (fun n => n.name)

/-- C10: in the ArkType generator, a scalar property whose name ends in
"Property" is emitted under the trimmed alias exactly when the alias is
non-empty and is not the name of another scalar property of the same
declaration; in every other case the original name is kept; and the keys
emitted for navigation properties are exactly their names, never
aliased. -/
theorem c10_ark_property_suffix_alias (props navs : List GoField) (n : Str) :
    (goHasSfx n (str "Property") = true → trimSfx n (str "Property") ≠ [] →
      trimSfx n (str "Property") ∉ props.map (fun q => q.name) →
      arkScalarKey (props.map (fun q => q.name)) n = trimSfx n (str "Property"))
    ∧ (goHasSfx n (str "Property") = true →
      trimSfx n (str "Property") ∈ props.map (fun q => q.name) →
      arkScalarKey (props.map (fun q => q.name)) n = n)
    ∧ (trimSfx n (str "Property") = [] →
      arkScalarKey (props.map (fun q => q.name)) n = n)
    ∧ (goHasSfx n (str "Property") = false →
      arkScalarKey (props.map (fun q => q.name)) n = n)
    ∧ (generateArkObjectKeys props navs).drop props.length
        = navs.map (fun nv => nv.name) := by
  refine ⟨?_, ?_, ?_, ?_, ?_⟩
  · intro hsfx hne hnotmem
    simp [arkScalarKey, hsfx, hne, hnotmem]
  · intro hsfx hmem
    by_cases hne : trimSfx n (str "Property") = []
    · simp [arkScalarKey, hsfx, hne]
    · simp [arkScalarKey, hsfx, hne, hmem]
  · intro hempty
    unfold arkScalarKey
    by_cases hsfx : goHasSfx n (str "Property") = true
    · simp [hsfx, hempty]
    · simp [hsfx]
  · intro hsfx
    simp [arkScalarKey, hsfx]
  · unfold generateArkObjectKeys
    rw [List.drop_left' (by rw [List.length_map])]

/-- Closed witness for C10: "ActivityProperty" with no sibling named
"Activity" is emitted under the alias key "Activity". -/
theorem c10_ark_property_suffix_alias_witness :
    (goHasSfx (str "ActivityProperty") (str "Property") = true
      ∧ trimSfx (str "ActivityProperty") (str "Property") ≠ []
      ∧ trimSfx (str "ActivityProperty") (str "Property")
          ∉ [GoField.mk (str "ActivityProperty") (str "Edm.Int32")].map
              (fun q => q.name))
    ∧ arkScalarKey
        ([GoField.mk (str "ActivityProperty") (str "Edm.Int32")].map
          (fun q => q.name))
        (str "ActivityProperty")
      = trimSfx (str "ActivityProperty") (str "Property") :=
  ⟨⟨by decide, by decide, by decide⟩,
    (c10_ark_property_suffix_alias
      [GoField.mk (str "ActivityProperty") (str "Edm.Int32")] []
      (str "ActivityProperty")).1 (by decide) (by decide) (by decide)⟩

/- =====================================================================
   main.go's type reference resolver (`resolveTypeRef`, lines 1013-1057)
   and its helpers (`stripPointer`, `isStructNamedType`, `boolOrDefault`).
   ===================================================================== -/

/-- Model of main.go's `stripPointer`. -/
def stripPointer (t : Str) : Str :=
  if goHasPfx t (str "*") then trimPfx t (str "*") else t

/-- Model of main.go's `boolOrDefault`: a nil `*bool` takes the default. -/
def boolOrDefault (p : Option Bool) (d : Bool) : Bool := p.getD d

/-- The `basic` type set inside main.go's `isStructNamedType`. -/
def basicGoTypes : List Str :=
  [str "string", str "bool", str "byte", str "rune",
   str "int", str "int8", str "int16", str "int32",
   str "int64", str "uint", str "uint8", str "uint16",
   str "uint32", str "uint64", str "float32", str "float64",
   str "time.Time", str "json.RawMessage"]

/-- Model of main.go's `isStructNamedType`. -/
def isStructNamedType (t : Str) : Bool :=
  if goHasPfx t (str "[]") || goHasPfx t (str "map[") then false
  else if t ∈ basicGoTypes then false
  else if t = str "decimal.Decimal" then true
  else true

/-- The match condition of main.go's `reCollection` regular expression
`Collection\((.+)\)` anchored at both ends: the fixed 11-character head,
the closing parenthesis, and at least one character in between. -/
def isReCollection (raw : Str) : Prop :=
  goHasPfx raw (str "Collection(") = true
  ∧ goHasSfx raw (str ")") = true
  ∧ 13 ≤ raw.length

instance (raw : Str) : Decidable (isReCollection raw) := by
  unfold isReCollection
  infer_instance

/-- The qualified-name completion inside `resolveTypeRef`: a reference
without a dot is assumed to live in the context namespace. -/
def qualifyName (ctxNS raw : Str) : Str :=
  if containsDot raw then raw else ctxNS ++ '.' :: raw

/-- Model of main.go's `resolveTypeRef`. `dm` is `opts.DecimalMode` and
`tnm` is the `st.typeNameMap` lookup (returning the empty string for a
missing key, like a Go map). The `useTime`/`useDecimal` flags mutated on
`st` do not influence the returned type string and are not modelled. -/
def resolveTypeRef (dm : Str) (tnm : Str → Str) (raw : Str)
    (nullable : Option Bool) (ctxNS : Str) : Str :=
  if h : isReCollection raw then
    str "[]" ++ stripPointer
      (resolveTypeRef dm tnm ((raw.drop 11).take (raw.length - 12)) none ctxNS)
  else if goHasPfx raw (str "Edm.") then
    (mapEdmToGo dm raw (boolOrDefault nullable true)).1
  else
    let goName := tnm (qualifyName ctxNS raw)
    if goName = [] then str "interface\x7b\x7d"
    else if boolOrDefault nullable true && isStructNamedType goName then
      '*' :: goName
    else goName
termination_by raw.length
decreasing_by
  have h3 : 13 ≤ raw.length := h.2.2
  simp only [List.length_take, List.length_drop]
  omega

/-- Helper: `stripPointer` removes exactly one leading star. -/
theorem stripPointerStar (t : Str) : stripPointer ('*' :: t) = t := by
  have h : goHasPfx ('*' :: t) (str "*") = true := by
    show List.isPrefixOf ['*'] ('*' :: t) = true
    simp [List.isPrefixOf]
  unfold stripPointer trimPfx
  rw [if_pos h, if_pos h]
  rfl

/-- Helper: `stripPointer` is the identity on strings that do not start
with a star. -/
theorem stripPointerOfHeadNe (c : Char) (t : Str) (hc : c ≠ '*') :
    stripPointer (c :: t) = c :: t := by
  have hb : (('*' : Char) == c) = false := by
    simp
    exact Ne.symm hc
  have h : goHasPfx (c :: t) (str "*") = false := by
    show List.isPrefixOf ['*'] (c :: t) = false
    simp [List.isPrefixOf, hb]
  unfold stripPointer
  rw [if_neg (by rw [h]; exact Bool.false_ne_true)]

set_option maxHeartbeats 1000000 in
/-- Helper: un-nullable and nullable `mapEdmToGo` results differ by at
most the leading star. -/
theorem mapEdmToGoStrip (dm raw : Str) :
    stripPointer (mapEdmToGo dm raw true).1 = (mapEdmToGo dm raw false).1 := by
  unfold mapEdmToGo
  by_cases h1 : raw = str "Edm.String"
  · subst h1; rfl
  simp only [if_neg h1]
  by_cases h2 : raw = str "Edm.Boolean"
  · subst h2; rfl
  simp only [if_neg h2]
  by_cases h3 : raw = str "Edm.Byte"
  · subst h3; rfl
  simp only [if_neg h3]
  by_cases h4 : raw = str "Edm.SByte"
  · subst h4; rfl
  simp only [if_neg h4]
  by_cases h5 : raw = str "Edm.Int16"
  · subst h5; rfl
  simp only [if_neg h5]
  by_cases h6 : raw = str "Edm.Int32"
  · subst h6; rfl
  simp only [if_neg h6]
  by_cases h7 : raw = str "Edm.Int64"
  · subst h7; rfl
  simp only [if_neg h7]
  by_cases h8 : raw = str "Edm.Single"
  · subst h8; rfl
  simp only [if_neg h8]
  by_cases h9 : raw = str "Edm.Double"
  · subst h9; rfl
  simp only [if_neg h9]
  by_cases h10 : raw = str "Edm.Decimal"
  · subst h10
    by_cases hdm : dm = str "string"
    · subst hdm; rfl
    · simp only [if_neg hdm]; rfl
  simp only [if_neg h10]
  by_cases h11 : raw = str "Edm.Date" ∨ raw = str "Edm.DateTime"
      ∨ raw = str "Edm.DateTimeOffset"
  · rcases h11 with h | h | h <;> subst h <;> rfl
  simp only [if_neg h11]
  by_cases h12 : raw = str "Edm.TimeOfDay" ∨ raw = str "Edm.Time"
  · rcases h12 with h | h <;> subst h <;> rfl
  simp only [if_neg h12]
  by_cases h13 : raw = str "Edm.Duration"
  · subst h13; rfl
  simp only [if_neg h13]
  by_cases h14 : raw = str "Edm.Binary"
  · subst h14; rfl
  simp only [if_neg h14]
  by_cases h15 : raw = str "Edm.Guid"
  · subst h15; rfl
  simp only [if_neg h15]
  rfl

/-- Helper: a string main.go classifies as non-struct never starts with a
star, so `stripPointer` leaves it unchanged. -/
theorem stripPointerOfNotStruct (t : Str) (h : isStructNamedType t = false) :
    stripPointer t = t := by
  unfold isStructNamedType at h
  split_ifs at h with hpfx hbasic hdec
  · rw [Bool.or_eq_true] at hpfx
    rcases hpfx with h1 | h1
    · simp only [goHasPfx] at h1
      obtain ⟨rest, hrest⟩ := List.isPrefixOf_iff_prefix.mp h1
      rw [← hrest]
      exact stripPointerOfHeadNe '[' _ (by decide)
    · simp only [goHasPfx] at h1
      obtain ⟨rest, hrest⟩ := List.isPrefixOf_iff_prefix.mp h1
      rw [← hrest]
      exact stripPointerOfHeadNe 'm' _ (by decide)
  · have hall : ∀ x ∈ basicGoTypes, stripPointer x = x := by decide
    exact hall t hbasic

/-- Helper: resolving with a nil nullability hint and stripping the
pointer afterwards is the same as resolving with nullable=false. -/
theorem stripPointerResolve (dm : Str) (tnm : Str → Str) (raw ctx : Str) :
    stripPointer (resolveTypeRef dm tnm raw none ctx)
      = resolveTypeRef dm tnm raw (some false) ctx := by
  unfold resolveTypeRef
  by_cases hcol : isReCollection raw
  · rw [dif_pos hcol, dif_pos hcol]
    exact stripPointerOfHeadNe '[' _ (by decide)
  · rw [dif_neg hcol, dif_neg hcol]
    by_cases hedm : goHasPfx raw (str "Edm.") = true
    · rw [if_pos hedm, if_pos hedm]
      simpa [boolOrDefault] using mapEdmToGoStrip dm raw
    · rw [if_neg hedm, if_neg hedm]
      by_cases hg : tnm (qualifyName ctx raw) = []
      · have hI : stripPointer (str "interface\x7b\x7d")
            = str "interface\x7b\x7d" := by decide
        simp [hg, hI]
      · by_cases hs : isStructNamedType (tnm (qualifyName ctx raw)) = true
        · simp [hg, hs, boolOrDefault, stripPointerStar]
        · have hs' : isStructNamedType (tnm (qualifyName ctx raw)) = false :=
            Bool.eq_false_iff.mpr hs
          simp [hg, hs', boolOrDefault, stripPointerOfNotStruct _ hs']

/-- Helper: a nonempty inner reference wrapped in `Collection(...)`
matches main.go's `reCollection` regular expression. -/
theorem isReCollectionWrap (X : Str) (hx : X ≠ []) :
    isReCollection (str "Collection(" ++ X ++ str ")") := by
  refine ⟨?_, ?_, ?_⟩
  · simp only [goHasPfx, List.isPrefixOf_iff_prefix]
    rw [List.append_assoc]
    exact List.prefix_append _ _
  · simp only [goHasSfx, List.isSuffixOf_iff_suffix]
    exact List.suffix_append _ _
  · have hA : (str "Collection(").length = 11 := rfl
    have hB : (str ")").length = 1 := rfl
    have hX : 0 < X.length := List.length_pos.mpr hx
    simp only [List.length_append, hA, hB]
    omega

/-- Helper: the inner text the regular expression captures from
`Collection(X)` is `X` itself. -/
theorem reCollectionInner (X : Str) :
    ((str "Collection(" ++ X ++ str ")").drop 11).take
      ((str "Collection(" ++ X ++ str ")").length - 12) = X := by
  have hdrop : (str "Collection(" ++ X ++ str ")").drop 11 = X ++ str ")" := by
    rw [List.append_assoc]
    exact List.drop_left' rfl
  have hA : (str "Collection(").length = 11 := rfl
  have hB : (str ")").length = 1 := rfl
  have hlen : (str "Collection(" ++ X ++ str ")").length - 12 = X.length := by
    simp only [List.length_append, hA, hB]
    omega
  rw [hdrop, hlen]
  exact List.take_left' rfl

/-- Helper: C6 for main.go's `resolveTypeRef`. -/
theorem resolveCollectionLaw (dm : Str) (tnm : Str → Str) (X : Str)
    (h : Option Bool) (ctx : Str) (hx : X ≠ []) :
    resolveTypeRef dm tnm (str "Collection(" ++ X ++ str ")") h ctx
      = str "[]" ++ resolveTypeRef dm tnm X (some false) ctx := by
  conv_lhs => unfold resolveTypeRef
  rw [dif_pos (isReCollectionWrap X hx), reCollectionInner X,
    stripPointerResolve]

/-- Helper: a string that is not collection-shaped is returned unchanged
by `isCollection`. -/
theorem grokIsCollectionOfNotColl (X : Str) (hX : (grokIsCollection X).1 = false) :
    grokIsCollection X = (false, X) := by
  unfold grokIsCollection at hX ⊢
  split_ifs at hX ⊢ <;> simp_all

/-- Helper: `isCollection` recognizes a `Collection(...)` wrapper and
recovers the inner text. -/
theorem grokIsCollectionWrap (X : Str) :
    grokIsCollection (str "Collection(" ++ X ++ str ")") = (true, X) := by
  unfold grokIsCollection
  rw [if_pos]
  · rw [Prod.mk.injEq]
    exact ⟨rfl, reCollectionInner X⟩
  · rw [Bool.and_eq_true]
    constructor
    · simp only [goHasPfx, List.isPrefixOf_iff_prefix]
      rw [List.append_assoc]
      exact List.prefix_append _ _
    · simp only [goHasSfx, List.isSuffixOf_iff_suffix]
      exact List.suffix_append _ _

/-- Helper: C6 for grok4fastWorking's `getGoType` (the inner reference
must not itself be collection-shaped: `getGoType` strips only one textual
layer). -/
theorem getGoTypeCollectionLaw (X : Str) (b : Bool)
    (hX : (grokIsCollection X).1 = false) :
    getGoType (str "Collection(" ++ X ++ str ")") b
      = str "[]" ++ getGoType X false := by
  unfold getGoType
  rw [grokIsCollectionWrap X, grokIsCollectionOfNotColl X hX]
  cases hm : edmToGo (extractEdmTypeName X) <;> simp [hm]

/-- C6: for every raw reference `Collection(X)` and every nullability
hint h, main.go's `resolveTypeRef` resolves it to the slice of `X`
resolved with the nullability cleared (nullable=false), with no pointer
wrapper ever added — independent of h; and grok4fastWorking's `getGoType`
obeys the same law whenever the inner reference is not itself
collection-shaped. -/
theorem c6_collection_resolution_law :
    (∀ (dm : Str) (tnm : Str → Str) (X : Str) (h : Option Bool) (ctx : Str),
      X ≠ [] →
      resolveTypeRef dm tnm (str "Collection(" ++ X ++ str ")") h ctx
        = str "[]" ++ resolveTypeRef dm tnm X (some false) ctx)
    ∧ (∀ (X : Str) (b : Bool), (grokIsCollection X).1 = false →
      getGoType (str "Collection(" ++ X ++ str ")") b
        = str "[]" ++ getGoType X false) :=
  ⟨resolveCollectionLaw, getGoTypeCollectionLaw⟩

/-- Closed witness for C6 at the inner reference `Edm.Int32`. -/
theorem c6_collection_resolution_law_witness :
    ((str "Edm.Int32" ≠ ([] : Str))
      ∧ (grokIsCollection (str "Edm.Int32")).1 = false)
    ∧ resolveTypeRef (str "shopspring") (fun _ => [])
        (str "Collection(" ++ str "Edm.Int32" ++ str ")") (some true) []
        = str "[]" ++ resolveTypeRef (str "shopspring") (fun _ => [])
            (str "Edm.Int32") (some false) []
    ∧ getGoType (str "Collection(" ++ str "Edm.Int32" ++ str ")") true
        = str "[]" ++ getGoType (str "Edm.Int32") false :=
  ⟨⟨by decide, by decide⟩,
    c6_collection_resolution_law.1 (str "shopspring") (fun _ => [])
      (str "Edm.Int32") (some true) [] (by decide),
    c6_collection_resolution_law.2 (str "Edm.Int32") true (by decide)⟩

/- =====================================================================
   C9 — unresolvable references (main.go `resolveTypeRef` fallback and
   src/unnamed/part_000 `getZodType`, lines 203-229).
   ===================================================================== -/

/-- Model of `getZodType` of src/unnamed/part_000: primitives map through
the `edmToZod` table; any other non-empty local name becomes a lazy
reference to `<name>Schema` (or to the given target schema name); only an
EMPTY local name falls back to `z.unknown()`; collections are wrapped in
`z.array(...)`; everything is suffixed `.nullish()`. The `isNullable`
parameter is accepted and ignored, as in the source. -/
def getZodType (edmType : Str) (isNullable : Bool) (targetSchemaName : Str) :
    Str :=
  let p := grokIsCollection edmType
  let innerName := extractEdmTypeName p.2
  let base :=
    match edmToZod innerName with
    | some z => z
    | none =>
      if innerName ≠ [] then
        str "z.lazy(() => "
          ++ (if targetSchemaName = [] then innerName ++ str "Schema"
              else targetSchemaName)
          ++ str ")"
      else str "z.unknown()"
  if p.1 then str "z.array(" ++ base ++ str ")" ++ str ".nullish()"
  else base ++ str ".nullish()"

/-- Helper: anything `getZodType` builds ends in `.nullish()`. -/
theorem sfxNullish (a : Str) :
    goHasSfx (a ++ str ".nullish()") (str ".nullish()") = true := by
  simp only [goHasSfx, List.isSuffixOf_iff_suffix]
  exact List.suffix_append _ _

/-- C9 counterexample: for the reference `NS.Zzz` — whose stripped local
name `Zzz` matches no primitive (and no declaration exists at all) — the
Zod generator's `getZodType` does not return the "unknown"/opaque
fallback: it emits a lazy reference to the never-declared `ZzzSchema`. -/
theorem c9_unknown_name_not_opaque :
    edmToZod (str "Zzz") = none
    ∧ getZodType (str "NS.Zzz") true [] = str "z.lazy(() => ZzzSchema).nullish()"
    ∧ getZodType (str "NS.Zzz") true [] ≠ str "z.unknown().nullish()" := by
  decide

/-- C9 (amended): an unresolvable reference never raises an error and the
run never aborts — both resolvers are total: main.go's `resolveTypeRef`
returns the opaque `interface{}` fallback whenever the (non-collection,
non-Edm-prefixed) reference is missing from the type-name map; the Zod
generator's `getZodType` returns the `z.unknown()` fallback only when the
stripped local name is empty, and otherwise still returns a well-formed
`.nullish()`-suffixed validator for every input whatsoever. -/
theorem c9_unresolvable_degrades_gracefully :
    (∀ (dm : Str) (tnm : Str → Str) (raw : Str) (h : Option Bool) (ctx : Str),
      ¬ isReCollection raw → goHasPfx raw (str "Edm.") = false →
      tnm (qualifyName ctx raw) = [] →
      resolveTypeRef dm tnm raw h ctx = str "interface\x7b\x7d")
    ∧ (∀ (t : Str) (b : Bool) (tgt : Str),
      extractEdmTypeName (grokIsCollection t).2 = [] →
      getZodType t b tgt = str "z.unknown().nullish()"
      ∨ getZodType t b tgt = str "z.array(z.unknown()).nullish()")
    ∧ (∀ (t : Str) (b : Bool) (tgt : Str),
      goHasSfx (getZodType t b tgt) (str ".nullish()") = true) := by
  refine ⟨?_, ?_, ?_⟩
  · intro dm tnm raw h ctx hcol hedm hmiss
    unfold resolveTypeRef
    rw [dif_neg hcol, if_neg (by rw [hedm]; exact Bool.false_ne_true)]
    simp [hmiss]
  · intro t b tgt hempty
    simp only [getZodType, hempty]
    have hzod : edmToZod ([] : Str) = none := rfl
    rw [hzod]
    cases hc : (grokIsCollection t).1
    · left
      rw [if_neg Bool.false_ne_true]
      rw [if_neg (fun hne : ([] : Str) ≠ [] => hne rfl)]
      decide
    · right
      rw [if_pos rfl]
      rw [if_neg (fun hne : ([] : Str) ≠ [] => hne rfl)]
      decide
  · intro t b tgt
    simp only [getZodType]
    cases hc : (grokIsCollection t).1
    · rw [if_neg Bool.false_ne_true]
      exact sfxNullish _
    · rw [if_pos rfl]
      exact sfxNullish _

/-- Closed witness for C9 at the concrete reference `NS.Missing` with an
empty type-name map. -/
theorem c9_unresolvable_degrades_gracefully_witness :
    (¬ isReCollection (str "NS.Missing")
      ∧ goHasPfx (str "NS.Missing") (str "Edm.") = false
      ∧ (fun (_ : Str) => ([] : Str)) (qualifyName [] (str "NS.Missing")) = [])
    ∧ resolveTypeRef (str "shopspring") (fun _ => []) (str "NS.Missing")
        (some true) [] = str "interface\x7b\x7d" :=
  ⟨⟨by decide, by decide, rfl⟩,
    c9_unresolvable_degrades_gracefully.1 (str "shopspring") (fun _ => [])
      (str "NS.Missing") (some true) [] (by decide) (by decide) rfl⟩

/- =====================================================================
   C1 — namespace aliasing and name qualification (main.go `generate`,
   lines 577-619, and `namespaceAlias`, lines 1203-1218).
   ===================================================================== -/

/-- Model of main.go's `sanitizeIdent`. -/
def sanitizeIdent (s : Str) : Str :=
  s.filter (fun r => r.isAlpha || r.isDigit)

/-- Model of main.go's `goExported`: upper-case the first rune; the first
output rune must be a letter or underscore (else an `X` is emitted, keeping
a leading digit after it); later runes are kept iff letter/digit/underscore. -/
def goExported (name : Str) : Str :=
  match name with
  | [] => str "X"
  | c :: rest =>
    (if c.toUpper.isAlpha || c.toUpper = '_' then [c.toUpper]
     else if c.toUpper.isDigit then ['X', c.toUpper] else ['X'])
    ++ rest.filter (fun r => r.isAlpha || r.isDigit || r = '_')

/-- The segment after the last occurrence of `ch`, or the whole string
when `ch` does not occur (model of the `strings.LastIndex` steps in
`namespaceAlias`). -/
def afterLastChar (ch : Char) (s : Str) : Str :=
  match breakLastChar ch s with
  | some (_, post) => post
  | none => s

/-- Model of main.go's `namespaceAlias`: last dot-segment, then last
slash-segment, sanitized; "NS" when empty; exported. -/
def namespaceAlias (ns : Str) : Str :=
  goExported
    (if sanitizeIdent (afterLastChar '/' (afterLastChar '.' ns)) = []
     then str "NS"
     else sanitizeIdent (afterLastChar '/' (afterLastChar '.' ns)))

/-- Model of main.go's `splitQualified`: split at the LAST dot; a dotless
name has the empty namespace. -/
def splitQualified (qn : Str) : Str × Str :=
  match breakLastChar '.' qn with
  | some (pre, post) => (pre, post)
  | none => ([], qn)

/-- One `<Schema>` as far as naming is concerned: its namespace and the
names of its entity, complex and enum declarations (Go map keys, so each
list is duplicate-free per kind). -/
structure GoSchema where
  ns : Str
  entityNames : List Str
  complexNames : List Str
  enumNames : List Str

/-- The qualified names `generate` registers for one schema (the
`st.knownTypes` entries `Namespace + "." + name`). -/
def schemaQNs (s : GoSchema) : List Str :=
  (s.entityNames ++ s.complexNames ++ s.enumNames).map (fun n => s.ns ++ '.' :: n)

/-- The key set of `st.knownTypes` over all schemas (a Go map: duplicates
collapse). -/
def knownTypes (schemas : List GoSchema) : List Str :=
  (schemas.flatMap schemaQNs).dedup

/-- Model of main.go's `distinctNamespaces`: the distinct non-empty
namespaces (iteration order is irrelevant to every property below). -/
def distinctNamespaces (schemas : List GoSchema) : List Str :=
  ((schemas.map (fun s => s.ns)).filter (fun n => !n.isEmpty)).dedup

/-- The `conflictNames[base]` counter of `generate`: how many registered
qualified names share the local base name. -/
def conflictCount (schemas : List GoSchema) (base : Str) : Nat :=
  (knownTypes schemas).countP (fun qn => (splitQualified qn).2 == base)

/-- The `needPrefix` flag of `generate`: always-mode, or auto-mode with
more than one distinct namespace present. -/
def needPfx (mode : Str) (schemas : List GoSchema) : Bool :=
  (mode == str "always")
  || ((mode == str "auto") && decide (1 < (distinctNamespaces schemas).length))

/-- The `st.nsAliases[ns]` lookup: aliases are only registered for the
distinct non-empty namespaces; any other key yields the empty string
(Go map zero value). -/
def aliasFor (schemas : List GoSchema) (ns : Str) : Str :=
  if ns ∈ distinctNamespaces schemas then namespaceAlias ns else []

/-- The rendered Go type name `st.typeNameMap[qn]` computed by `generate`
(lines 612-619): the exported base name, prefixed with the namespace alias
when `needPrefix` holds or the base name is shared by more than one
registered qualified name. -/
def typeNameFor (schemas : List GoSchema) (mode : Str) (qn : Str) : Str :=
  if needPfx mode schemas
      || decide (1 < conflictCount schemas (splitQualified qn).2) then
    aliasFor schemas (splitQualified qn).1 ++ goExported (splitQualified qn).2
  else goExported (splitQualified qn).2

/-- Two schemas in different namespaces, each declaring one entity whose
local name occurs in exactly one namespace. -/
def c1Schemas : List GoSchema :=
  [⟨str "A.One", [str "Foo"], [], []⟩, ⟨str "B.Two", [str "Bar"], [], []⟩]

/-- C1 counterexample: under "auto", the local name `Foo` occurs in
exactly one namespace of the two-namespace load `c1Schemas`, yet its
rendered name is the alias-prefixed `OneFoo`, not the unqualified `Foo` —
`needPrefix` is true as soon as two distinct namespaces exist, regardless
of per-name collisions. -/
theorem c1_auto_qualifies_unique_name :
    conflictCount c1Schemas (str "Foo") = 1
    ∧ str "A.One.Foo" ∈ knownTypes c1Schemas
    ∧ typeNameFor c1Schemas (str "auto") (str "A.One.Foo") = str "OneFoo"
    ∧ typeNameFor c1Schemas (str "auto") (str "A.One.Foo") ≠ str "Foo" := by
  decide

/-- C1 (amended): under "auto", qualification is decided by the number of
distinct namespaces in the load, not per local name: with two or more
distinct namespaces EVERY registered name is rendered with its namespace
alias prefixed (unique local names included); with at most one distinct
namespace a name whose base is not shared by another registered qualified
name is rendered unqualified. -/
theorem c1_auto_qualification_depends_on_ns_count
    (schemas : List GoSchema) (qn : Str) :
    (1 < (distinctNamespaces schemas).length →
      typeNameFor schemas (str "auto") qn
        = aliasFor schemas (splitQualified qn).1
          ++ goExported (splitQualified qn).2)
    ∧ ((distinctNamespaces schemas).length ≤ 1 →
      conflictCount schemas (splitQualified qn).2 ≤ 1 →
      typeNameFor schemas (str "auto") qn = goExported (splitQualified qn).2) := by
  constructor
  · intro hns
    have hnp : needPfx (str "auto") schemas = true := by
      unfold needPfx
      rw [show (str "auto" == str "always") = false from rfl,
        show (str "auto" == str "auto") = true from rfl]
      simp [decide_eq_true hns]
    simp [typeNameFor, hnp]
  · intro hns hcf
    have hnp : needPfx (str "auto") schemas = false := by
      unfold needPfx
      rw [show (str "auto" == str "always") = false from rfl,
        show (str "auto" == str "auto") = true from rfl]
      simp [decide_eq_false (Nat.not_lt.mpr hns)]
    simp [typeNameFor, hnp, decide_eq_false (Nat.not_lt.mpr hcf)]

/-- Closed witness for C1 (amended) on the two-namespace load. -/
theorem c1_auto_qualification_depends_on_ns_count_witness :
    (1 < (distinctNamespaces c1Schemas).length)
    ∧ typeNameFor c1Schemas (str "auto") (str "A.One.Foo")
        = aliasFor c1Schemas (splitQualified (str "A.One.Foo")).1
          ++ goExported (splitQualified (str "A.One.Foo")).2 :=
  ⟨by decide,
    (c1_auto_qualification_depends_on_ns_count c1Schemas (str "A.One.Foo")).1
      (by decide)⟩

end EdmGen
